import Mathlib

/-!
Verification development for the phaseField application driver
(src/applications/_multiPrecipitatePostProcessing/main.cc) and the
field-evolution engine it orchestrates.  The driver is embedded from the
source; engine components that the repository only references
(ConstraintManager, TimeStepper, CheckpointManager, ResidualAssembler,
FieldRegistry) are modelled from the specification.
-/

namespace PhaseField

/-! ## Driver embedding (from main.cc) -/

/-- A thrown C++ value, as seen by the two catch handlers in main.cc:
either a std::exception (carrying its what() message) or anything else. -/
inductive Exc where
  | stdExc (what : String)
  | otherExc
deriving DecidableEq

/-- The five driver operations invoked by main.cc lines 29-37. -/
inductive Phase where
  | loadUserInput
  | setBCs
  | buildFields
  | init
  | solve
deriving DecidableEq

/-- The fixed call order in the try block of main.cc. -/
def driverSequence : List Phase :=
  [Phase.loadUserInput, Phase.setBCs, Phase.buildFields, Phase.init, Phase.solve]

/-- The build-phase operations (everything before solve). -/
def buildPhases : List Phase :=
  [Phase.loadUserInput, Phase.setBCs, Phase.buildFields, Phase.init]

/-- Run the given operations in order; each either completes or throws.
Returns the list of operations actually entered and the first exception,
if any, exactly as C++ sequential statements inside one try block behave. -/
def runSeq (beh : Phase → Except Exc Unit) : List Phase → List Phase × Option Exc
  | [] => ([], none)
  | p :: ps =>
    match beh p with
    | Except.ok _ => (p :: (runSeq beh ps).1, (runSeq beh ps).2)
    | Except.error e => ([p], some e)

/-- The separator line printed by both handlers (52 dashes). -/
def sepLine : String := "----------------------------------------------------"

/-- The line printed just before the closing separator in both handlers. -/
def abortLine : String := "Aborting!"

/-- The header line of the std::exception handler. -/
def excHeaderLine : String := "Exception on processing: "

/-- The header line of the catch-all handler. -/
def unknownLine : String := "Unknown exception!"

/-- The stderr lines written by the catch (std::exception) handler,
main.cc lines 41-48: two blank lines, separator, header, what(),
"Aborting!", separator. -/
def stdExcLines (what : String) : List String :=
  [ "", "", sepLine, excHeaderLine, what, abortLine, sepLine]

/-- The stderr lines written by the catch (...) handler, main.cc
lines 53-59. -/
def unknownExcLines : List String :=
  [ "", "", sepLine, unknownLine, abortLine, sepLine]

/-- Standard-error output of main as a function of the propagated
exception, if any. -/
def diagnosticFor : Option Exc → List String
  | none => []
  | some (Exc.stdExc what) => stdExcLines what
  | some Exc.otherExc => unknownExcLines

/-- Exit code of main as a function of the propagated exception:
return 0 at line 63, return 1 at lines 49 and 60. -/
def exitFor : Option Exc → Nat
  | none => 0
  | some _ => 1

/-- Observable result of one run of main: exit code, stderr lines, and
the trace of driver operations entered. -/
structure DriverResult where
  exitCode : Nat
  stderrLines : List String
  trace : List Phase
deriving DecidableEq

/-- Embedding of main (main.cc lines 22-64): run loadUserInput, setBCs,
buildFields, init, solve in order inside the try block; translate the
propagated exception (if any) through the two catch handlers. -/
def mainDriver (beh : Phase → Except Exc Unit) : DriverResult :=
  ⟨exitFor (runSeq beh driverSequence).2,
   diagnosticFor (runSeq beh driverSequence).2,
   (runSeq beh driverSequence).1⟩

/-! ## Parameter loading model -/

/-- A run configuration: named parameters with textual values. -/
abbrev Config := List (String × String)

/-- Message reported when a required parameter key is absent. -/
def missingKeyMsg (k : String) : String := "Missing required parameter: " ++ k

/-- Modelled from the spec: the body of `loadUserInput`
(src/userInputParameters/loadUserInputs.cc is referenced by main.cc but
is not part of the excerpt).  Per §6, "Missing required keys fail
configuration with a descriptive error before any field is built": the
first required key absent from the configuration raises a
ConfigurationError naming that key; otherwise loading succeeds. -/
def loadUserInputModel (cfg : Config) (required : List String) : Except Exc Unit :=
  match required.find? (fun k => !(cfg.any (fun kv => kv.1 == k))) with
  | some k => Except.error (Exc.stdExc (missingKeyMsg k))
  | none => Except.ok ()

/-- Replace the behaviour of the loadUserInput phase, leaving the other
phases unchanged. -/
def withLoad (r : Except Exc Unit) (beh : Phase → Except Exc Unit) :
    Phase → Except Exc Unit :=
  fun p =>
    match p with
    | Phase.loadUserInput => r
    | _ => beh p

/-! ## ConstraintManager model

Modelled from the spec (§3, §4.2): a constraint set maps a constrained
DOF index to an affine relation (an inhomogeneity plus a linear
combination of other DOFs); `apply` projects a DOF vector onto the
constrained affine subspace. -/

/-- An affine relation for one constrained DOF: value
`inhom + Σ coeff · v[idx]` over the listed (idx, coeff) entries. -/
structure AffineConstraint where
  entries : List (Nat × ℚ)
  inhom : ℚ
deriving DecidableEq

/-- A constraint set: association list from constrained DOF index to its
affine relation. -/
abbrev ConstraintSpec := List (Nat × AffineConstraint)

/-- The value an affine relation assigns, reading the argument vector. -/
def constraintValue (c : AffineConstraint) (v : List ℚ) : ℚ :=
  c.inhom + (c.entries.map (fun e => e.2 * v.getD e.1 0)).sum

/-- Modelled from the spec: `ConstraintManager.apply` — overwrite every
constrained DOF with the value of its affine relation evaluated on the
incoming vector; unconstrained DOFs pass through. -/
def applyCL (cs : ConstraintSpec) (v : List ℚ) : List ℚ :=
  (List.range v.length).map (fun i =>
    match List.lookup i cs with
    | none => v.getD i 0
    | some c => constraintValue c v)

/-- A constraint set is resolved when every affine relation reads only
unconstrained DOFs (the form deal.II-style hanging-node/Dirichlet
constraint sets take after closure). -/
abbrev resolvedCS (cs : ConstraintSpec) : Prop :=
  ∀ p ∈ cs, ∀ e ∈ p.2.entries, List.lookup e.1 cs = none

/-! ## ResidualAssembler model

Modelled from the spec (§3, §4.3): assembly is a per-cell local
evaluation accumulated over the mesh cells; the assembler owns a scratch
residual vector that is reset at the start of each evaluation. -/

/-- Read-only view of all field value vectors, by field name. -/
abbrev FieldVals := String → Option (List ℚ)

/-- A field's governing right-hand side: given the field name, a snapshot
of all field values, and the time, produce the update/residual vector. -/
abbrev RHS := String → FieldVals → ℚ → List ℚ

/-- A per-cell local evaluation of a governing equation (cells are
identified by index). -/
abbrev LocalEval := String → FieldVals → ℚ → Nat → List ℚ

/-- The assembler's owned scratch residual vector (spec §3: "scratch,
owned by ResidualAssembler, reset each evaluation"). -/
structure AssemblerScratch where
  scratch : List ℚ
deriving DecidableEq

/-- Accumulate two local contribution vectors, padding the shorter. -/
def vaddPad : List ℚ → List ℚ → List ℚ
  | [], ys => ys
  | xs, [] => xs
  | x :: xs, y :: ys => (x + y) :: vaddPad xs ys

/-- Modelled from the spec: `ResidualAssembler.assemble` — reset the
scratch vector, accumulate the local contribution of every mesh cell,
and return the assembled vector together with the assembler's
post-call state. -/
def assembleRun (lev : LocalEval) (cells : List Nat) (st : AssemblerScratch)
    (name : String) (vals : FieldVals) (t : ℚ) : List ℚ × AssemblerScratch :=
  let res := cells.foldl (fun acc c => vaddPad acc (lev name vals t c)) []
  (res, ⟨res⟩)

/-! ## TimeStepper model

Modelled from the spec (§4.4): per step, each EXPLICIT_TIME_DEPENDENT
field, in declared order, is updated by `value ← value + Δt · update`
followed by ConstraintManager.apply, where every update is assembled
against the pre-step snapshot of all field values. -/

/-- Simulation time state (spec §3). -/
structure TimeState where
  step : Nat
  time : ℚ
deriving DecidableEq

/-- Full stepper state: time state plus every field's value vector in
declared order. -/
structure SimState where
  ts : TimeState
  fields : List (String × List ℚ)
deriving DecidableEq

/-- Snapshot view of a field list, by name. -/
def toVals (fields : List (String × List ℚ)) : FieldVals :=
  fun n => List.lookup n fields

/-- Componentwise vector addition. -/
def vadd (v w : List ℚ) : List ℚ := List.zipWith (fun a b => a + b) v w

/-- Scalar multiple of a vector. -/
def smul (c : ℚ) (v : List ℚ) : List ℚ := v.map (fun a => c * a)

/-- Modelled from the spec: one explicit sweep of the time stepper —
every explicit field, in declared order, gets
`apply(value + Δt · assemble(name, snapshot, t))`, the snapshot being
the pre-step field values. -/
def explicitStep (rhs : RHS) (cs : String → ConstraintSpec) (dt t : ℚ)
    (fields : List (String × List ℚ)) : List (String × List ℚ) :=
  fields.map (fun p => (p.1, applyCL (cs p.1) (vadd p.2 (smul dt (rhs p.1 (toVals fields) t)))))

/-- One full time step: advance step index and time, update all fields. -/
def stepOnce (rhs : RHS) (cs : String → ConstraintSpec) (dt : ℚ) (s : SimState) : SimState :=
  ⟨⟨s.ts.step + 1, s.ts.time + dt⟩, explicitStep rhs cs dt s.ts.time s.fields⟩

/-- Advance the stepper n steps. -/
def advance (rhs : RHS) (cs : String → ConstraintSpec) (dt : ℚ) :
    Nat → SimState → SimState
  | 0, s => s
  | n + 1, s => advance rhs cs dt n (stepOnce rhs cs dt s)

/-! ## CheckpointManager model

Modelled from the spec (§4.5, §6): the checkpoint record is a time-state
header (step index, simulation time) followed by one length-prefixed
block per field value vector, in field-declaration order. -/

/-- One word of the checkpoint record: a header/length word or a value. -/
inductive CkptWord where
  | nat (n : Nat)
  | val (q : ℚ)
deriving DecidableEq

/-- One length-prefixed block for a field's value vector. -/
def encodeField (f : List ℚ) : List CkptWord :=
  CkptWord.nat f.length :: f.map CkptWord.val

/-- All field blocks, in declaration order. -/
def encodeFields : List (List ℚ) → List CkptWord
  | [] => []
  | f :: fs => encodeField f ++ encodeFields fs

/-- Modelled from the spec: `CheckpointManager.save` — serialize the
time-state header followed by every field's length-prefixed block. -/
def saveCkpt (ts : TimeState) (fs : List (List ℚ)) : List CkptWord :=
  CkptWord.nat ts.step :: CkptWord.val ts.time :: encodeFields fs

/-- Read n value words from the record. -/
def takeVals : Nat → List CkptWord → Option (List ℚ × List CkptWord)
  | 0, l => some ([], l)
  | n + 1, CkptWord.val q :: l =>
    match takeVals n l with
    | none => none
    | some (vs, r) => some (q :: vs, r)
  | _ + 1, CkptWord.nat _ :: _ => none
  | _ + 1, [] => none

/-- Parse the sequence of length-prefixed field blocks (fuel bounds the
number of blocks; each block consumes at least its length word). -/
def parseFields : Nat → List CkptWord → Option (List (List ℚ))
  | _, [] => some []
  | 0, _ :: _ => none
  | fuel + 1, CkptWord.nat n :: l =>
    match takeVals n l with
    | none => none
    | some (vs, r) =>
      match parseFields fuel r with
      | none => none
      | some fs => some (vs :: fs)
  | _ + 1, CkptWord.val _ :: _ => none

/-- Modelled from the spec: `CheckpointManager.restore` — parse the
header then every field block; any malformed record fails with an
IOError (here: none). -/
def restoreCkpt (w : List CkptWord) : Option (TimeState × List (List ℚ)) :=
  match w with
  | CkptWord.nat s :: CkptWord.val t :: rest =>
    match parseFields rest.length rest with
    | none => none
    | some fs => some (⟨s, t⟩, fs)
  | _ => none

/-- Checkpoint a full stepper state (field names are not serialized —
spec §6 stores blocks in declaration order only). -/
def saveState (s : SimState) : List CkptWord :=
  saveCkpt s.ts (s.fields.map Prod.snd)

/-- Restore a full stepper state, re-attaching the declared field names
to the deserialized vectors in order. -/
def restoreState (names : List String) (w : List CkptWord) : Option SimState :=
  match restoreCkpt w with
  | none => none
  | some (ts, vecs) =>
    if names.length = vecs.length then some ⟨ts, names.zip vecs⟩ else none

/-- The declared field names of a state, in declaration order. -/
def fieldNames (s : SimState) : List String := s.fields.map Prod.fst

/-! ## FieldRegistry build model -/

/-- A declared field: name and its finite-element space's DOF count on
the mesh. -/
structure FieldDecl where
  name : String
  dofCount : Nat

/-- Modelled from the spec: `FieldRegistry.buildFields` — allocate for
each declared field a value vector sized to the mesh's DOF count,
initialized through the initial-condition collaborator (§4.1, §6). -/
def buildFieldsModel (decls : List FieldDecl) (ic : String → Nat → ℚ) :
    List (String × List ℚ) :=
  decls.map (fun d => (d.name, (List.range d.dofCount).map (ic d.name)))

/-- The stepper state immediately after build: step 0, time 0, freshly
built fields. -/
def initialState (decls : List FieldDecl) (ic : String → Nat → ℚ) : SimState :=
  ⟨⟨0, 0⟩, buildFieldsModel decls ic⟩

/-! ## Concrete data used by witnesses -/

/-- Behaviour where every driver operation completes. -/
def behOK : Phase → Except Exc Unit := fun _ => Except.ok ()

/-- Behaviour where every operation throws a non-std value. -/
def behAllFail : Phase → Except Exc Unit := fun _ => Except.error Exc.otherExc

/-- Sample std::exception message for a failing setBCs. -/
def bcErrMsg : String := "conflicting Dirichlet values at boundary id 2"

/-- Behaviour where setBCs throws a std::exception. -/
def behBCFail : Phase → Except Exc Unit :=
  fun p =>
    match p with
    | Phase.setBCs => Except.error (Exc.stdExc bcErrMsg)
    | _ => Except.ok ()

/-- Sample required-parameter list with one key. -/
def c3key : String := "domain.size"

/-- Sample required-parameter list for the missing-key scenario. -/
def c3required : List String := [c3key]

/-- Sample configuration that lacks the required key. -/
def c3cfg : Config := [ ( "mesh.refine", "5")]

/-- Sample constraint set: DOF 0 is constrained to 3 + 2·v[1]. -/
def c4cs : ConstraintSpec := [(0, ⟨[(1, 2)], 3⟩)]

/-- Sample DOF vector for the idempotence witness. -/
def c4v : List ℚ := [5, 7, 11]

/-- Sample explicit field names and vectors for the order-independence
witness. -/
def c7a : String := "u"

def c7b : String := "w"

def c7va : List ℚ := [0, 1]

def c7vb : List ℚ := [2, 3]

/-- Sample right-hand side coupling both fields to the time. -/
def c7rhs : RHS := fun _ _ t => [t, t]

/-- Sample constraint map with no constrained DOFs (zero-flux BCs). -/
def c7cs : String → ConstraintSpec := fun _ => []

/-- The single scalar explicit field of the zero-update scenario. -/
def c8name : String := "c"

/-- Uniform initial value 1.0 on four DOFs. -/
def c8v : List ℚ := List.replicate 4 1

/-- Governing update of zero everywhere. -/
def c8rhs : RHS := fun _ _ _ => List.replicate 4 0

/-- Zero-flux boundary conditions: no constrained DOFs. -/
def c8cs : String → ConstraintSpec := fun _ => []

/-- Initial stepper state for the zero-update scenario. -/
def c8s0 : SimState := ⟨⟨0, 0⟩, [(c8name, c8v)]⟩

/-! ## Driver theorems -/

theorem runSeq_all_ok (beh : Phase → Except Exc Unit) (h : ∀ p, beh p = Except.ok ()) :
    runSeq beh driverSequence = (driverSequence, none) := by
  simp [runSeq, driverSequence, h]

theorem solve_mem_imp (beh : Phase → Except Exc Unit)
    (hm : Phase.solve ∈ (runSeq beh driverSequence).1) :
    beh Phase.loadUserInput = Except.ok () ∧ beh Phase.setBCs = Except.ok () ∧
    beh Phase.buildFields = Except.ok () ∧ beh Phase.init = Except.ok () := by
  cases h1 : beh Phase.loadUserInput with
  | error e => simp [runSeq, driverSequence, h1] at hm
  | ok u =>
    cases u
    cases h2 : beh Phase.setBCs with
    | error e => simp [runSeq, driverSequence, h1, h2] at hm
    | ok u =>
      cases u
      cases h3 : beh Phase.buildFields with
      | error e => simp [runSeq, driverSequence, h1, h2, h3] at hm
      | ok u =>
        cases u
        cases h4 : beh Phase.init with
        | error e => simp [runSeq, driverSequence, h1, h2, h3, h4] at hm
        | ok u =>
          cases u
          exact ⟨rfl, rfl, rfl, rfl⟩

/-- C1: if the sequence loadUserInput, setBCs, buildFields, init, solve
completes without an exception the process exits with code 0; if any
exception propagates to the top-level driver, the driver writes a
diagnostic to standard error and the process exits with code 1. -/
theorem driver_exit_codes (beh : Phase → Except Exc Unit) :
    ((∀ p, beh p = Except.ok ()) → (mainDriver beh).exitCode = 0) ∧
    (∀ e, (runSeq beh driverSequence).2 = some e →
      (mainDriver beh).stderrLines ≠ [] ∧ (mainDriver beh).exitCode = 1) := by
  constructor
  · intro h
    show exitFor (runSeq beh driverSequence).2 = 0
    rw [runSeq_all_ok beh h]
    rfl
  · intro e he
    constructor
    · show diagnosticFor (runSeq beh driverSequence).2 ≠ []
      rw [he]
      cases e <;> simp [diagnosticFor, stdExcLines, unknownExcLines]
    · show exitFor (runSeq beh driverSequence).2 = 1
      rw [he]
      rfl

theorem driver_exit_codes_witness :
    (mainDriver behOK).exitCode = 0 ∧
    ((mainDriver behAllFail).stderrLines ≠ [] ∧ (mainDriver behAllFail).exitCode = 1) :=
  ⟨(driver_exit_codes behOK).1 (fun _ => rfl),
   (driver_exit_codes behAllFail).2 Exc.otherExc rfl⟩

/-- C2: on every non-exceptional run the driver invokes loadUserInput,
setBCs, buildFields, init, solve exactly once each, in that fixed
order. -/
theorem driver_call_order (beh : Phase → Except Exc Unit)
    (h : ∀ p, beh p = Except.ok ()) :
    (mainDriver beh).trace = driverSequence := by
  show (runSeq beh driverSequence).1 = driverSequence
  rw [runSeq_all_ok beh h]

theorem driver_call_order_witness : (mainDriver behOK).trace = driverSequence :=
  driver_call_order behOK (fun _ => rfl)

/-- C3: if any build-phase operation raises an error, solve is never
entered; and a configuration missing a required key fails in
loadUserInput with a descriptive error naming a missing key, before
buildFields is ever called. -/
theorem build_failure_blocks_solve :
    (∀ (beh : Phase → Except Exc Unit) (p : Phase) (e : Exc),
       p ∈ buildPhases → beh p = Except.error e →
       Phase.solve ∉ (mainDriver beh).trace) ∧
    (∀ (cfg : Config) (required : List String) (beh : Phase → Except Exc Unit),
       (∃ k, k ∈ required ∧ ∀ kv ∈ cfg, kv.1 ≠ k) →
       Phase.buildFields ∉
           (mainDriver (withLoad (loadUserInputModel cfg required) beh)).trace ∧
         ∃ k, k ∈ required ∧ (∀ kv ∈ cfg, kv.1 ≠ k) ∧
           missingKeyMsg k ∈
             (mainDriver (withLoad (loadUserInputModel cfg required) beh)).stderrLines) := by
  constructor
  · intro beh p e hp hfail hm
    have hm' : Phase.solve ∈ (runSeq beh driverSequence).1 := hm
    obtain ⟨o1, o2, o3, o4⟩ := solve_mem_imp beh hm'
    simp [buildPhases] at hp
    rcases hp with rfl | rfl | rfl | rfl
    · rw [o1] at hfail; exact Except.noConfusion hfail
    · rw [o2] at hfail; exact Except.noConfusion hfail
    · rw [o3] at hfail; exact Except.noConfusion hfail
    · rw [o4] at hfail; exact Except.noConfusion hfail
  · intro cfg required beh hex
    have hfind : required.find? (fun k => !(cfg.any (fun kv => kv.1 == k))) ≠ none := by
      obtain ⟨k, hk, hnk⟩ := hex
      intro hnone
      rw [List.find?_eq_none] at hnone
      apply hnone k hk
      simp only [Bool.not_eq_true', List.any_eq_false]
      intro kv hkv
      simpa using hnk kv hkv
    obtain ⟨k0, hk0⟩ :
        ∃ k0, required.find? (fun k => !(cfg.any (fun kv => kv.1 == k))) = some k0 :=
      Option.ne_none_iff_exists'.mp hfind
    have hload : loadUserInputModel cfg required
        = Except.error (Exc.stdExc (missingKeyMsg k0)) := by
      unfold loadUserInputModel
      rw [hk0]
    have hrun : runSeq (withLoad (loadUserInputModel cfg required) beh) driverSequence
        = ([Phase.loadUserInput], some (Exc.stdExc (missingKeyMsg k0))) := by
      simp [runSeq, driverSequence, withLoad, hload]
    constructor
    · show Phase.buildFields ∉
        (runSeq (withLoad (loadUserInputModel cfg required) beh) driverSequence).1
      rw [hrun]
      simp
    · refine ⟨k0, List.mem_of_find?_eq_some hk0, ?_, ?_⟩
      · have hpred := List.find?_some hk0
        simp only [Bool.not_eq_true', List.any_eq_false] at hpred
        intro kv hkv
        simpa using hpred kv hkv
      · show missingKeyMsg k0 ∈ diagnosticFor
          (runSeq (withLoad (loadUserInputModel cfg required) beh) driverSequence).2
        rw [hrun]
        simp [diagnosticFor, stdExcLines]

theorem build_failure_blocks_solve_witness :
    Phase.solve ∉ (mainDriver behBCFail).trace ∧
    (Phase.buildFields ∉
        (mainDriver (withLoad (loadUserInputModel c3cfg c3required) behOK)).trace ∧
      ∃ k, k ∈ c3required ∧ (∀ kv ∈ c3cfg, kv.1 ≠ k) ∧
        missingKeyMsg k ∈
          (mainDriver (withLoad (loadUserInputModel c3cfg c3required) behOK)).stderrLines) :=
  ⟨build_failure_blocks_solve.1 behBCFail Phase.setBCs (Exc.stdExc bcErrMsg)
      (by decide) rfl,
   build_failure_blocks_solve.2 c3cfg c3required behOK ⟨c3key, by decide, by decide⟩⟩

/-- C10 counterexample: with every phase throwing a non-std value, the
last line written to standard error is the separator line, not
"Aborting!", so the diagnostic does not end in "Aborting!". -/
theorem driver_diag_last_counterexample :
    (mainDriver behAllFail).stderrLines.getLast? = some sepLine ∧
    (mainDriver behAllFail).stderrLines.getLast? ≠ some abortLine := by
  refine ⟨rfl, ?_⟩
  intro h
  have h2 : sepLine = abortLine :=
    Option.some.inj ((show (mainDriver behAllFail).stderrLines.getLast? = some sepLine
      from rfl) ▸ h)
  exact absurd h2 (by decide)

/-- C10 (amended): main never terminates via an uncaught exception —
every thrown value is caught, each handler writes a diagnostic
containing the line "Aborting!" to standard error and returns 1, and
the only possible return values of main are 0 and 1. -/
theorem driver_catches_all (beh : Phase → Except Exc Unit) :
    ((mainDriver beh).exitCode = 0 ∨ (mainDriver beh).exitCode = 1) ∧
    (∀ e, (runSeq beh driverSequence).2 = some e →
      abortLine ∈ (mainDriver beh).stderrLines ∧ (mainDriver beh).exitCode = 1) := by
  constructor
  · show exitFor (runSeq beh driverSequence).2 = 0 ∨
      exitFor (runSeq beh driverSequence).2 = 1
    cases (runSeq beh driverSequence).2 with
    | none => exact Or.inl rfl
    | some e => exact Or.inr rfl
  · intro e he
    constructor
    · show abortLine ∈ diagnosticFor (runSeq beh driverSequence).2
      rw [he]
      cases e <;> simp [diagnosticFor, stdExcLines, unknownExcLines]
    · show exitFor (runSeq beh driverSequence).2 = 1
      rw [he]
      rfl

theorem driver_catches_all_witness :
    abortLine ∈ (mainDriver behBCFail).stderrLines ∧
      (mainDriver behBCFail).exitCode = 1 :=
  (driver_catches_all behBCFail).2 (Exc.stdExc bcErrMsg) rfl

/-! ## ConstraintManager theorems -/

theorem applyCL_length (cs : ConstraintSpec) (v : List ℚ) :
    (applyCL cs v).length = v.length := by
  simp [applyCL]

theorem getD_applyCL (cs : ConstraintSpec) (v : List ℚ) (i : Nat) :
    (applyCL cs v).getD i 0 =
      if i < v.length then
        (match List.lookup i cs with
         | none => v.getD i 0
         | some c => constraintValue c v)
      else 0 := by
  rw [List.getD_eq_getElem?_getD]
  unfold applyCL
  rw [List.getElem?_map]
  by_cases h : i < v.length
  · rw [List.getElem?_range h, if_pos h]
    rfl
  · rw [List.getElem?_eq_none (by simpa using Nat.le_of_not_lt h), if_neg h]
    rfl

theorem getD_applyCL_unconstrained (cs : ConstraintSpec) (v : List ℚ) (j : Nat)
    (h : List.lookup j cs = none) :
    (applyCL cs v).getD j 0 = v.getD j 0 := by
  rw [getD_applyCL]
  by_cases hj : j < v.length
  · rw [if_pos hj, h]
  · rw [if_neg hj, List.getD_eq_default _ _ (Nat.le_of_not_lt hj)]

theorem constraintValue_applyCL (cs : ConstraintSpec) (v : List ℚ)
    (c : AffineConstraint) (h : ∀ e ∈ c.entries, List.lookup e.1 cs = none) :
    constraintValue c (applyCL cs v) = constraintValue c v := by
  unfold constraintValue
  congr 1
  congr 1
  apply List.map_congr_left
  intro e he
  rw [getD_applyCL_unconstrained cs v e.1 (h e he)]

theorem lookup_mem : ∀ (cs : ConstraintSpec) (i : Nat) (c : AffineConstraint),
    List.lookup i cs = some c → (i, c) ∈ cs := by
  intro cs
  induction cs with
  | nil => intro i c h; simp [List.lookup] at h
  | cons p t ih =>
    intro i c h
    obtain ⟨a, b⟩ := p
    by_cases hik : (i == a) = true
    · rw [List.lookup, hik] at h
      have hia : i = a := by simpa using hik
      have hbc : b = c := Option.some.inj h
      rw [hia, hbc]
      exact List.mem_cons_self _ _
    · have hf : (i == a) = false := Bool.eq_false_iff.mpr hik
      rw [List.lookup, hf] at h
      exact List.mem_cons_of_mem _ (ih i c h)

/-- C4: for every constraint set whose affine relations read only
unconstrained DOFs and every DOF vector, ConstraintManager.apply is
idempotent: apply(apply(v)) = apply(v). -/
theorem constraint_apply_idempotent (cs : ConstraintSpec) (v : List ℚ)
    (h : resolvedCS cs) :
    applyCL cs (applyCL cs v) = applyCL cs v := by
  apply List.ext_getElem
  · rw [applyCL_length, applyCL_length]
  · intro i h1 h2
    have hi : i < v.length := by
      rw [applyCL_length, applyCL_length] at h1
      exact h1
    rw [← List.getD_eq_getElem _ 0 h1, ← List.getD_eq_getElem _ 0 h2]
    rw [getD_applyCL cs (applyCL cs v) i, applyCL_length, if_pos hi]
    cases hl : List.lookup i cs with
    | none => rfl
    | some c =>
      show constraintValue c (applyCL cs v) = (applyCL cs v).getD i 0
      rw [constraintValue_applyCL cs v c (h (i, c) (lookup_mem cs i c hl))]
      rw [getD_applyCL cs v i, if_pos hi, hl]

theorem constraint_apply_idempotent_witness :
    applyCL c4cs (applyCL c4cs c4v) = applyCL c4cs c4v :=
  constraint_apply_idempotent c4cs c4v (by decide)

/-! ## Checkpoint theorems -/

theorem takeVals_encode (f : List ℚ) (r : List CkptWord) :
    takeVals f.length (f.map CkptWord.val ++ r) = some (f, r) := by
  induction f with
  | nil => rfl
  | cons q t ih => simp [takeVals, ih]

theorem parseFields_encode (fs : List (List ℚ)) :
    ∀ fuel, (encodeFields fs).length ≤ fuel →
      parseFields fuel (encodeFields fs) = some fs := by
  induction fs with
  | nil => intro fuel hf; cases fuel <;> rfl
  | cons f t ih =>
    intro fuel hf
    have hlen : (encodeFields (f :: t)).length
        = f.length + (encodeFields t).length + 1 := by
      simp only [encodeFields, encodeField, List.length_append, List.length_cons,
        List.length_map]
      omega
    cases fuel with
    | zero =>
      exfalso
      rw [hlen] at hf
      omega
    | succ m =>
      have hle : (encodeFields t).length ≤ m := by
        rw [hlen] at hf
        omega
      have hunf : encodeFields (f :: t)
          = CkptWord.nat f.length :: (f.map CkptWord.val ++ encodeFields t) := by
        simp [encodeFields, encodeField]
      rw [hunf]
      simp [parseFields, takeVals_encode, ih m hle]

theorem restore_save (ts : TimeState) (fs : List (List ℚ)) :
    restoreCkpt (saveCkpt ts fs) = some (ts, fs) := by
  show restoreCkpt (CkptWord.nat ts.step :: CkptWord.val ts.time :: encodeFields fs)
    = some (ts, fs)
  simp [restoreCkpt, parseFields_encode fs (encodeFields fs).length (le_refl _)]

theorem zip_fst_snd (l : List (String × List ℚ)) :
    (l.map Prod.fst).zip (l.map Prod.snd) = l := by
  induction l with
  | nil => rfl
  | cons p t ih => simp [ih]

theorem restoreState_saveState (s : SimState) :
    restoreState (fieldNames s) (saveState s) = some s := by
  have h1 : restoreCkpt (saveState s) = some (s.ts, s.fields.map Prod.snd) :=
    restore_save s.ts (s.fields.map Prod.snd)
  unfold restoreState
  rw [h1]
  show (if (fieldNames s).length = (s.fields.map Prod.snd).length
        then some (⟨s.ts, (fieldNames s).zip (s.fields.map Prod.snd)⟩ : SimState)
        else none) = some s
  rw [if_pos (by simp [fieldNames])]
  show some (⟨s.ts, (s.fields.map Prod.fst).zip (s.fields.map Prod.snd)⟩ : SimState)
    = some s
  rw [zip_fst_snd]

/-- C5: for every valid configuration, building the fields, saving a
checkpoint immediately after build, and restoring it reproduces the
state at the moment of the save (value vectors included). -/
theorem build_ckpt_roundtrip (decls : List FieldDecl) (ic : String → Nat → ℚ) :
    restoreState (fieldNames (initialState decls ic))
        (saveState (initialState decls ic))
      = some (initialState decls ic) :=
  restoreState_saveState (initialState decls ic)

theorem advance_add (rhs : RHS) (cs : String → ConstraintSpec) (dt : ℚ)
    (k m : Nat) (s : SimState) :
    advance rhs cs dt (k + m) s = advance rhs cs dt m (advance rhs cs dt k s) := by
  induction k generalizing s with
  | zero =>
    rw [Nat.zero_add]
    rfl
  | succ k ih =>
    rw [Nat.succ_add]
    show advance rhs cs dt (k + m) (stepOnce rhs cs dt s)
      = advance rhs cs dt m (advance rhs cs dt k (stepOnce rhs cs dt s))
    exact ih (stepOnce rhs cs dt s)

/-- C6: running k steps, checkpointing, restoring, and continuing m more
steps produces the same state as the single uninterrupted run of k + m
steps. -/
theorem ckpt_resume_equiv (rhs : RHS) (cs : String → ConstraintSpec) (dt : ℚ)
    (k m : Nat) (s0 : SimState) :
    Option.map (advance rhs cs dt m)
        (restoreState (fieldNames (advance rhs cs dt k s0))
          (saveState (advance rhs cs dt k s0)))
      = some (advance rhs cs dt (k + m) s0) := by
  rw [restoreState_saveState, advance_add]
  rfl

/-! ## TimeStepper theorems -/

theorem lookup_pair (n a b : String) (va vb : List ℚ) :
    List.lookup n [(a, va), (b, vb)] =
      if n = a then some va else if n = b then some vb else none := by
  by_cases ha : n = a
  · subst ha
    simp [List.lookup]
  · have hfa : (n == a) = false := beq_false_of_ne ha
    by_cases hb : n = b
    · subst hb
      simp [List.lookup, hfa, ha]
    · have hfb : (n == b) = false := beq_false_of_ne hb
      simp [List.lookup, hfa, hfb, ha, hb]

theorem toVals_pair_comm (a b : String) (va vb : List ℚ) (hab : a ≠ b) :
    toVals [(a, va), (b, vb)] = toVals [(b, vb), (a, va)] := by
  funext n
  show List.lookup n [(a, va), (b, vb)] = List.lookup n [(b, vb), (a, va)]
  rw [lookup_pair, lookup_pair]
  by_cases h1 : n = a
  · have hnb : ¬ n = b := fun hnb => hab (h1.symm.trans hnb)
    rw [if_pos h1, if_neg hnb, if_pos h1]
  · by_cases h2 : n = b
    · rw [if_neg h1, if_pos h2, if_pos h2]
    · rw [if_neg h1, if_neg h2, if_neg h2, if_neg h1]

/-- C7: two explicit fields advanced within one step produce identical
per-name value vectors in either declared order, because both assemble
against the pre-step snapshot of all field values. -/
theorem explicit_update_order_indep (rhs : RHS) (cs : String → ConstraintSpec)
    (dt t : ℚ) (a b : String) (va vb : List ℚ) (hab : a ≠ b) :
    toVals (explicitStep rhs cs dt t [(a, va), (b, vb)]) =
      toVals (explicitStep rhs cs dt t [(b, vb), (a, va)]) := by
  have hsnap := toVals_pair_comm a b va vb hab
  simp only [explicitStep, List.map]
  rw [hsnap]
  exact toVals_pair_comm a b
    (applyCL (cs a) (vadd va (smul dt (rhs a (toVals [(b, vb), (a, va)]) t))))
    (applyCL (cs b) (vadd vb (smul dt (rhs b (toVals [(b, vb), (a, va)]) t)))) hab

theorem explicit_update_order_indep_witness :
    toVals (explicitStep c7rhs c7cs 1 0 [(c7a, c7va), (c7b, c7vb)]) =
      toVals (explicitStep c7rhs c7cs 1 0 [(c7b, c7vb), (c7a, c7va)]) :=
  explicit_update_order_indep c7rhs c7cs 1 0 c7a c7b c7va c7vb (by decide)

theorem smul_replicate_zero (c : ℚ) (n : Nat) :
    smul c (List.replicate n 0) = List.replicate n 0 := by
  simp [smul]

theorem vadd_replicate_zero (v : List ℚ) :
    vadd v (List.replicate v.length 0) = v := by
  induction v with
  | nil => rfl
  | cons x xs ih =>
    simp only [List.length_cons, List.replicate_succ, vadd, List.zipWith_cons_cons,
      add_zero]
    simp only [vadd] at ih
    rw [ih]

theorem lookup_map (k : String) (l : List (String × List ℚ))
    (f : String × List ℚ → List ℚ) :
    List.lookup k (l.map (fun p => (p.1, f p))) =
      Option.map (fun w => f (k, w)) (List.lookup k l) := by
  induction l with
  | nil => rfl
  | cons p t ih =>
    obtain ⟨a, w⟩ := p
    by_cases hk : k = a
    · subst hk
      simp [List.lookup]
    · have hf : (k == a) = false := beq_false_of_ne hk
      simp [List.lookup, hf, ih]

/-- C8: an explicit field whose governing update is identically zero is
unchanged by any number of steps of any positive step size, provided its
initial vector satisfies its constraints. -/
theorem zero_update_field_unchanged (rhs : RHS) (cs : String → ConstraintSpec)
    (dt : ℚ) (name : String) (v : List ℚ) (s0 : SimState) (n : Nat)
    (hdt : 0 < dt)
    (hz : ∀ w t, rhs name w t = List.replicate v.length 0)
    (hc : applyCL (cs name) v = v)
    (h0 : List.lookup name s0.fields = some v) :
    List.lookup name (advance rhs cs dt n s0).fields = some v := by
  have main : ∀ (m : Nat) (s : SimState), List.lookup name s.fields = some v →
      List.lookup name (advance rhs cs dt m s).fields = some v := by
    intro m
    induction m with
    | zero => intro s hs; exact hs
    | succ j ih =>
      intro s hs
      show List.lookup name (advance rhs cs dt j (stepOnce rhs cs dt s)).fields
        = some v
      apply ih
      show List.lookup name (explicitStep rhs cs dt s.ts.time s.fields) = some v
      unfold explicitStep
      rw [lookup_map name s.fields
        (fun p => applyCL (cs p.1) (vadd p.2 (smul dt (rhs p.1 (toVals s.fields) s.ts.time))))]
      rw [hs]
      show some (applyCL (cs name)
        (vadd v (smul dt (rhs name (toVals s.fields) s.ts.time)))) = some v
      rw [hz, smul_replicate_zero, vadd_replicate_zero, hc]
  exact main n s0 h0

theorem zero_update_field_unchanged_witness :
    List.lookup c8name (advance c8rhs c8cs 1 100 c8s0).fields = some c8v :=
  zero_update_field_unchanged c8rhs c8cs 1 c8name c8v c8s0 100 (by norm_num)
    (fun _ _ => rfl) (by decide) (by decide)

/-! ## ResidualAssembler theorems -/

/-- C9: assemble is deterministic and has no hidden state — its output
is independent of the assembler's incoming scratch state, and a repeat
invocation with identical inputs (after the first call has overwritten
the scratch vector) returns the identical vector. -/
theorem assemble_deterministic (lev : LocalEval) (cells : List Nat)
    (s1 s2 : AssemblerScratch) (name : String) (vals : FieldVals) (t : ℚ) :
    (assembleRun lev cells s1 name vals t).1 = (assembleRun lev cells s2 name vals t).1 ∧
    (assembleRun lev cells (assembleRun lev cells s1 name vals t).2 name vals t).1
      = (assembleRun lev cells s1 name vals t).1 :=
  ⟨rfl, rfl⟩

end PhaseField
